import Mathlib

/-!
Shallow embedding of the sketch acquisition subsystem of the
Sketchplanations new-tab extension (`src/newtab.js`), together with proofs
of the specified properties.

Modelling conventions:
* Machine time is an `Int` counting milliseconds since the epoch (the value
  of JavaScript `Date.prototype.getTime`).  The timezone-dependent local
  calendar decomposition performed by `getFullYear`/`getMonth`/`getDate`
  is abstracted as a parameter `civil : Int → Civil`.
* The key-value store slots touched by the acquisition policy are gathered
  in a `Store` structure; absent slots are `none`.
* The Fetch Client's network interactions are modelled by oracles:
  `Nat → AttemptOutcome` gives the outcome of the i-th raw HTTP attempt of
  `fetchSketchData`, and `Nat → Sketch` gives the i-th successful result
  of a whole `fetchSketchData` call when a caller such as `fetchNewSketch`
  only ever observes successes.
* JavaScript `||` fallbacks on strings treat the empty string as falsy;
  this is mirrored by `jsOrS` / `jsOrO`.
* JavaScript `while` loops and bounded recursion are encoded with explicit
  fuel equal to the bound obvious from the code.
-/

/-- Local calendar decomposition of an epoch instant, as produced by
JavaScript `getFullYear()` / `getMonth()` / `getDate()`. -/
structure Civil where
  year : Int
  month : Nat
  day : Nat
deriving DecidableEq, Repr

-- Frequency control constants (newtab.js lines 17-20)
def FREQUENCY_DAILY : String := "daily"

def FREQUENCY_HOURLY : String := "hourly"

def FREQUENCY_EACH_TAB : String := "each-tab"

def DEFAULT_FREQUENCY : String := FREQUENCY_DAILY

/-- Embedding of `shouldFetchNewSketch` (newtab.js lines 153-179).
`civil` abstracts the local-time calendar decomposition of a `Date`;
`now` is `new Date().getTime()` and `lastFetchTime` the stored epoch
instant (`none` when the slot is absent). -/
def shouldFetchNewSketch (civil : Int → Civil) (frequency : String)
    (lastFetchTime : Option Int) (now : Int) : Bool :=
  match lastFetchTime with
  | none => true
  | some lastFetch =>
    if frequency = FREQUENCY_DAILY then
      -- Check if it's a new calendar day
      ((civil now).day != (civil lastFetch).day) ||
      ((civil now).month != (civil lastFetch).month) ||
      ((civil now).year != (civil lastFetch).year)
    else if frequency = FREQUENCY_HOURLY then
      -- Check if it's been an hour
      decide (now - lastFetch ≥ 60 * 60 * 1000)
    else if frequency = FREQUENCY_EACH_TAB then
      -- Always fetch new sketch
      true
    else
      true

/-- The three user-selectable cadence frequencies. -/
inductive Frequency
  | daily
  | hourly
  | eachTab
deriving DecidableEq, Repr

/-- The storage key under which a `Frequency` is persisted. -/
def Frequency.toKey : Frequency → String
  | .daily => FREQUENCY_DAILY
  | .hourly => FREQUENCY_HOURLY
  | .eachTab => FREQUENCY_EACH_TAB

/-- Reference definition of the cadence rule, written from the
specification's words: absent `lastFetchTime` always requires a fetch;
`daily` compares the whole local calendar date; `hourly` compares elapsed
milliseconds against 3,600,000; `each-tab` always fetches. -/
def shouldFetchSpec (civil : Int → Civil) (f : Frequency)
    (lastFetchTime : Option Int) (now : Int) : Bool :=
  match lastFetchTime with
  | none => true
  | some lastFetch =>
    match f with
    | .daily => decide (civil now ≠ civil lastFetch)
    | .hourly => decide (now - lastFetch ≥ 3600000)
    | .eachTab => true

/-- Connectivity classification as persisted under `connectivityCache`. -/
structure ConnCache where
  state : String
  timestamp : Int
deriving DecidableEq, Repr

/-- Embedding of `shouldUseCachedError` (newtab.js lines 80-89); `now` is
`Date.now()` at the moment of the check. -/
def shouldUseCachedError (cache : Option ConnCache) (now : Int) : Bool :=
  match cache with
  | none => false
  | some cache =>
    let cacheAge := now - cache.timestamp
    let maxAge : Int := 2 * 60 * 1000
    cache.state == "service_issue" && decide (cacheAge < maxAge)

/-- Fuel-indexed encoding of the `while (recent.length > size) recent.pop()`
loop of `rememberSketch` (newtab.js line 304): each step removes the last
element while the length exceeds `size`; the fuel is the list length, an
upper bound on the number of iterations. -/
def popWhileOver (size : Nat) : Nat → List String → List String
  | 0, recent => recent
  | fuel + 1, recent =>
    if recent.length > size then popWhileOver size fuel recent.dropLast
    else recent

/-- Embedding of `rememberSketch` (newtab.js lines 300-306) acting on the
`recent` slot: `unshift` the uid, then pop from the back while the length
exceeds the cap of 24. -/
def rememberSketch (uid : String) (recent : List String) : List String :=
  let size := 24
  let recent := uid :: recent
  popWhileOver size recent.length recent

/-- The raw JSON body of a successful API response, before the field
mapping performed by `fetchSketchData` (newtab.js lines 219-229).  A
`none` field is one the upstream JSON omits; a `some ""` field is present
but empty (and hence falsy for the `||` fallbacks). -/
structure ApiData where
  uid : String
  title : Option String
  imageUrlOptimised : Option String
  imageUrl : Option String
  pageUrl : Option String
  description : Option String
  redbubbleUrl : Option String
  imageAlt : Option String
  publishedAt : Option String
  podcastUrl : Option String
deriving DecidableEq, Repr

/-- JavaScript `a || b` on a possibly-absent string producing a string:
absent and empty strings are falsy. -/
def jsOrS (a : Option String) (b : String) : String :=
  match a with
  | some s => if s = "" then b else s
  | none => b

/-- JavaScript `a || b` on a possibly-absent string producing a
possibly-absent string: absent and empty strings are falsy. -/
def jsOrO (a : Option String) (b : Option String) : Option String :=
  match a with
  | some s => if s = "" then b else some s
  | none => b

/-- JavaScript `data.uid.replace(dash-regex-global, " ")`: every dash
character is replaced by a space (the pattern is a single character, so
this is a character map). -/
def dashesToSpaces (s : String) : String :=
  String.mk (s.toList.map fun c => if c = '-' then ' ' else c)

/-- The canonical sketch record produced by the field mapping of
`fetchSketchData`. -/
structure Sketch where
  uid : String
  title : String
  image : Option String
  url : String
  description : String
  prints : Option String
  imageAlt : String
  publishedAt : Option String
  podcastUrl : Option String
deriving DecidableEq, Repr

/-- The field mapping of `fetchSketchData` (newtab.js lines 219-229),
applied to a body that passed the `!data || !data.uid` validation. -/
def toSketch (data : ApiData) : Sketch :=
  { uid := data.uid
    title := jsOrS data.title (dashesToSpaces data.uid)
    image := jsOrO data.imageUrlOptimised (jsOrO data.imageUrl none)
    url := jsOrS data.pageUrl ("https://sketchplanations.com/" ++ data.uid)
    description := jsOrS data.description ""
    prints := jsOrO data.redbubbleUrl none
    imageAlt := jsOrS data.imageAlt (jsOrS data.title "")
    publishedAt := jsOrO data.publishedAt none
    podcastUrl := jsOrO data.podcastUrl none }

/-- The errors a single `fetchSketchData` attempt can raise (newtab.js
lines 205-256): a non-ok HTTP status, a JSON body failing the uid
validation, the 15-second abort, the browser network failure
(`TypeError: Failed to fetch`), and the "Request timed out" error the
function substitutes for an abort after retries are exhausted. -/
inductive JsErr
  | httpStatus (code : Nat)
  | malformed (body : String)
  | abort
  | network
  | timedOut
deriving DecidableEq, Repr

/-- The `name` property of the JavaScript error object for each error. -/
def errNameOf : JsErr → String
  | .abort => "AbortError"
  | .network => "TypeError"
  | _ => "Error"

/-- The `message` property of the JavaScript error object for each error,
as constructed by the source. -/
def errMessageOf : JsErr → String
  | .httpStatus code => "Failed to fetch sketch data: " ++ toString code
  | .malformed body => "Unexpected response: " ++ body
  | .abort => "The user aborted a request."
  | .network => "Failed to fetch"
  | .timedOut => "Request timed out"

/-- Whether the character list `pat` occurs at the head of `l`. -/
def headMatches : List Char → List Char → Bool
  | [], _ => true
  | _ :: _, [] => false
  | p :: ps, c :: cs => p == c && headMatches ps cs

/-- Whether the character list `pat` occurs contiguously anywhere in `l`;
this is JavaScript `String.prototype.includes`. -/
def containsSeq (pat : List Char) : List Char → Bool
  | [] => headMatches pat []
  | c :: cs => headMatches pat (c :: cs) || containsSeq pat cs

/-- JavaScript `s.includes(pat)`. -/
def includesStr (s pat : String) : Bool :=
  containsSeq pat.toList s.toList

/-- JavaScript `s.match(/50[0-9]/) !== null`: the string contains a `'5'`
followed by a `'0'` followed by a decimal digit. -/
def match50x : List Char → Bool
  | [] => false
  | c1 :: rest =>
    (match rest with
     | c2 :: c3 :: _ => c1 == '5' && c2 == '0' && c3.isDigit
     | _ => false) || match50x rest

/-- Embedding of the transient-failure test of `fetchSketchData`
(newtab.js lines 235-238):
`err.name === "AbortError" || err.message.includes("Failed to fetch") ||
(err.message.includes("status") && err.message.match(/50[0-9]/))`. -/
def isTransientError (err : JsErr) : Bool :=
  errNameOf err == "AbortError" ||
  includesStr (errMessageOf err) "Failed to fetch" ||
  (includesStr (errMessageOf err) "status" && match50x (errMessageOf err).toList)

/-- Outcome of one raw HTTP attempt inside `fetchSketchData`: the request
resolved with an ok status and a parsed JSON body (`none` models a JSON
`null` body), resolved with a non-ok status, was aborted by the 15-second
timeout, or was rejected by the network layer. -/
inductive AttemptOutcome
  | respOk (body : Option ApiData)
  | respStatus (code : Nat)
  | aborted
  | networkFail
deriving Repr

/-- A JSON-like rendering of a body, standing in for `JSON.stringify` in
the `Unexpected response` message (its exact text never influences
control flow in the claims under study). -/
def stringifyBody : Option ApiData → String
  | none => "null"
  | some data => "uid: " ++ data.uid

/-- The non-retry part of one `fetchSketchData` attempt (newtab.js lines
205-216 and 252-255 for the no-retry exits): status validation, uid
validation, and the field mapping. -/
def runAttempt : AttemptOutcome → Except JsErr Sketch
  | .respOk body =>
    match body with
    | none => .error (.malformed (stringifyBody none))
    | some data =>
      if data.uid = "" then .error (.malformed (stringifyBody (some data)))
      else .ok (toSketch data)
  | .respStatus code => .error (.httpStatus code)
  | .aborted => .error .abort
  | .networkFail => .error .network

/-- The error finally thrown once no retry happens (newtab.js lines
252-255): an abort is converted to `Error("Request timed out")`, any other
error is rethrown unchanged. -/
def finalizeError : JsErr → JsErr
  | .abort => .timedOut
  | e => e

/-- Embedding of `fetchSketchData` (newtab.js lines 197-257) as a function
of the attempt oracle.  `retriesLeft` is `maxRetries - retryCount`
(so the guard `retryCount < maxRetries` is `retriesLeft > 0`, encoded
structurally).  Returns the final result, the number of attempts made, and
the list of backoff delays (in ms) awaited between attempts. -/
def fetchAttemptsGo (oracle : Nat → AttemptOutcome) :
    Nat → Nat → Except JsErr Sketch × Nat × List Nat
  | retriesLeft, retryCount =>
    match runAttempt (oracle retryCount) with
    | .ok s => (.ok s, 1, [])
    | .error err =>
      match retriesLeft with
      | 0 => (.error (finalizeError err), 1, [])
      | retriesLeft + 1 =>
        if isTransientError err then
          -- Exponential backoff: 1s, 2s
          let backoffDelay := 2 ^ retryCount * 1000
          let rest := fetchAttemptsGo oracle retriesLeft (retryCount + 1)
          (rest.1, rest.2.1 + 1, backoffDelay :: rest.2.2)
        else
          (.error (finalizeError err), 1, [])

/-- `fetchSketchData()` called from the top with `retryCount = 0` and
`maxRetries = 2`. -/
def fetchSketchData (oracle : Nat → AttemptOutcome) :
    Except JsErr Sketch × Nat × List Nat :=
  fetchAttemptsGo oracle 2 0

/-- The key-value store slots the acquisition policy reads and writes. -/
structure Store where
  frequency : String
  lastFetchTime : Option Int
  lastSketch : Option Sketch
  recent : List String
  connectivityCache : Option ConnCache
deriving DecidableEq, Repr

/-- Observable events of a `fetchNewSketch` run: the i-th call to the
Fetch Client (`fetchSketchData`), and the two store writes performed when
a fetched record is accepted. -/
inductive Ev
  | call (i : Nat)
  | setLastFetchTime (t : Int)
  | setLastSketch (data : Sketch)
deriving DecidableEq, Repr

/-- Whether an event is a Fetch Client call. -/
def Ev.isCall : Ev → Bool
  | .call _ => true
  | _ => false

/-- Applying a store-write event to the store (calls leave it alone). -/
def applyEv (s : Store) : Ev → Store
  | .call _ => s
  | .setLastFetchTime t => { s with lastFetchTime := some t }
  | .setLastSketch data => { s with lastSketch := some data }

/-- Number of Fetch Client calls recorded in a trace. -/
def callCount (tr : List Ev) : Nat :=
  tr.countP fun e => e.isCall

/-- The loop of `fetchNewSketch` (newtab.js lines 285-297), with explicit
fuel for the five conditional attempts: while fuel remains, fetch and
accept the result when its uid is not in `recent`; once the fuel is
exhausted, fetch once more and accept unconditionally (lines 294-297).
`results i` is the record returned by the (i+1)-th successful
`fetchSketchData()` call; `now` is the instant written by
`setLastFetchTime(new Date().toISOString())` on acceptance.  Returns the
accepted record and the event trace. -/
def fetchLoop (results : Nat → Sketch) (recent : List String) (now : Int) :
    Nat → Nat → Sketch × List Ev
  | 0, i =>
    let data := results i
    (data, [Ev.call i, Ev.setLastFetchTime now, Ev.setLastSketch data])
  | fuel + 1, i =>
    let data := results i
    if recent.contains data.uid then
      let rest := fetchLoop results recent now fuel (i + 1)
      (rest.1, Ev.call i :: rest.2)
    else
      -- Update last fetch time and store the sketch
      (data, [Ev.call i, Ev.setLastFetchTime now, Ev.setLastSketch data])

/-- Embedding of `fetchNewSketch` (newtab.js lines 283-298): read `recent`
from the store and run the de-duplicating loop with five conditional
attempts. -/
def fetchNewSketch (results : Nat → Sketch) (now : Int) (s : Store) :
    Sketch × List Ev :=
  fetchLoop results s.recent now 5 0

/-- Embedding of `nextUniqueSketch` (newtab.js lines 266-281): if the
cadence rule does not require a fetch and a last sketch is stored, return
it with an empty trace; otherwise fall through to `fetchNewSketch`. -/
def nextUniqueSketch (civil : Int → Civil) (results : Nat → Sketch)
    (now : Int) (s : Store) : Sketch × List Ev :=
  if shouldFetchNewSketch civil s.frequency s.lastFetchTime now = false then
    match s.lastSketch with
    | some lastSketch => (lastSketch, [])
    | none => fetchNewSketch results now s
  else
    fetchNewSketch results now s

/-- The store state after running a `fetchNewSketch` / `nextUniqueSketch`
trace from `s`. -/
def runTrace (s : Store) (tr : List Ev) : Store :=
  tr.foldl applyEv s

/-- Success path of `handleRefresh` (newtab.js lines 376-395): fetch a new
sketch, remember its uid, render.  Note: no `clearConnectivityCache()`
call appears on this path. -/
def handleRefreshSuccess (results : Nat → Sketch) (now : Int) (s : Store) :
    Sketch × Store :=
  let r := fetchNewSketch results now s
  let s1 := runTrace s r.2
  (r.1, { s1 with recent := rememberSketch r.1.uid s1.recent })

/-- Success path of the `retry` handler installed by `showErrorState`
(newtab.js lines 600-606): fetch, clear the connectivity cache, remember
the uid, render. -/
def retrySuccess (results : Nat → Sketch) (now : Int) (s : Store) :
    Sketch × Store :=
  let r := fetchNewSketch results now s
  let s1 := runTrace s r.2
  let s2 := { s1 with connectivityCache := none }
  (r.1, { s2 with recent := rememberSketch r.1.uid s2.recent })

/-- Success path of the refresh handler installed while an error state is
shown (newtab.js lines 629-641): fetch, clear the connectivity cache,
remember the uid, render. -/
def errorRefreshSuccess (results : Nat → Sketch) (now : Int) (s : Store) :
    Sketch × Store :=
  let r := fetchNewSketch results now s
  let s1 := runTrace s r.2
  let s2 := { s1 with connectivityCache := none }
  (r.1, { s2 with recent := rememberSketch r.1.uid s2.recent })

/-- Success path of the initial load in `init` (newtab.js lines
1010-1015): `nextUniqueSketch`, clear the connectivity cache, remember the
uid, render. -/
def initLoadSuccess (civil : Int → Civil) (results : Nat → Sketch)
    (now : Int) (s : Store) : Sketch × Store :=
  let r := nextUniqueSketch civil results now s
  let s1 := runTrace s r.2
  let s2 := { s1 with connectivityCache := none }
  (r.1, { s2 with recent := rememberSketch r.1.uid s2.recent })

/-! ## Concrete fixtures used by witnesses and counterexamples -/

/-- A minimal valid API body whose uid contains a dash and which omits
every optional field. -/
def sampleBody : ApiData :=
  ⟨"a-b", none, none, none, none, none, none, none, none, none⟩

/-- A concrete sketch record. -/
def sampleSketch : Sketch := toSketch sampleBody

/-- A Fetch Client attempt oracle failing with HTTP 503 on the first two
attempts and succeeding from the third on. -/
def oracle503 (data : ApiData) : Nat → AttemptOutcome := fun n =>
  if n < 2 then .respStatus 503 else .respOk (some data)

/-- A Fetch Client attempt oracle failing with HTTP 404 on every
attempt. -/
def oracle404 : Nat → AttemptOutcome := fun _ => .respStatus 404

/-- A Fetch Client stub whose every successful fetch returns uid `A`. -/
def stubAlwaysA : Nat → Sketch := fun _ => { sampleSketch with uid := "A" }

/-- A store whose recency window already contains uid `A`. -/
def storeWithA : Store := ⟨"daily", none, none, ["A"], none⟩

/-! ## Theorems -/

/-- C2: `shouldFetchNewSketch(frequency, lastFetchTime)` agrees with the
reference cadence rule: absent `lastFetchTime` always fetches; `daily`
fetches iff the local calendar date of `now` differs from that of the
last fetch; `hourly` fetches iff at least 3,600,000 ms elapsed; `each-tab`
always fetches. -/
theorem c2_shouldFetch_matches_spec (civil : Int → Civil) (f : Frequency)
    (lastFetchTime : Option Int) (now : Int) :
    shouldFetchNewSketch civil f.toKey lastFetchTime now =
      shouldFetchSpec civil f lastFetchTime now := by
  cases lastFetchTime with
  | none => cases f <;> rfl
  | some lf =>
    cases f with
    | daily =>
      show (((civil now).day != (civil lf).day) ||
        ((civil now).month != (civil lf).month) ||
        ((civil now).year != (civil lf).year)) = decide (civil now ≠ civil lf)
      rcases hn : civil now with ⟨y1, m1, d1⟩
      rcases hl : civil lf with ⟨y2, m2, d2⟩
      by_cases h1 : d1 = d2 <;> by_cases h2 : m1 = m2 <;> by_cases h3 : y1 = y2 <;>
        simp [h1, h2, h3, Civil.mk.injEq]
    | hourly =>
      show decide (now - lf ≥ 60 * 60 * 1000) = decide (now - lf ≥ 3600000)
      norm_num
    | eachTab => rfl

/-- C8: `shouldUseCachedError` is true exactly when the stored
classification is a `service_issue` strictly younger than 120,000 ms; in
particular it is still valid 90 s after caching, no longer valid 121 s
after caching, and an `offline` classification is never reused. -/
theorem c8_cached_error_window :
    (∀ (cache : Option ConnCache) (now : Int),
      shouldUseCachedError cache now = true ↔
        ∃ c, cache = some c ∧ c.state = "service_issue" ∧
          now - c.timestamp < 120000) ∧
    (∀ T : Int,
      shouldUseCachedError (some ⟨"service_issue", T⟩) (T + 90000) = true ∧
      shouldUseCachedError (some ⟨"service_issue", T⟩) (T + 121000) = false) ∧
    (∀ (ts now : Int), shouldUseCachedError (some ⟨"offline", ts⟩) now = false) := by
  refine ⟨?_, ?_, ?_⟩
  · intro cache now
    cases cache with
    | none => simp [shouldUseCachedError]
    | some c =>
      simp only [shouldUseCachedError, Bool.and_eq_true, beq_iff_eq,
        decide_eq_true_eq]
      constructor
      · rintro ⟨hs, ha⟩
        exact ⟨c, rfl, hs, by omega⟩
      · rintro ⟨c', hc, hs, ha⟩
        cases Option.some.inj hc
        exact ⟨hs, by omega⟩
  · intro T
    exact ⟨by simp [shouldUseCachedError], by simp [shouldUseCachedError]⟩
  · intro ts now
    simp [shouldUseCachedError]

/-- Unfolding of one iteration of the `while` loop of `rememberSketch`. -/
theorem popWhileOver_succ (size fuel : Nat) (l : List String) :
    popWhileOver size (fuel + 1) l =
      if l.length > size then popWhileOver size fuel l.dropLast else l := by
  conv_lhs => rw [popWhileOver]

/-- The `while` loop of `rememberSketch` leaves a list within the cap
untouched. -/
theorem popWhileOver_of_le (size fuel : Nat) (l : List String)
    (h : l.length ≤ size) : popWhileOver size fuel l = l := by
  cases fuel with
  | zero => rfl
  | succ f => rw [popWhileOver_succ, if_neg (by omega)]

/-- Closed form of `rememberSketch` on a window within the cap: the uid is
pushed at the front, and exactly the last entry is dropped when the window
was full. -/
theorem rememberSketch_eq (uid : String) (recent : List String)
    (h : recent.length ≤ 24) :
    rememberSketch uid recent =
      if recent.length = 24 then uid :: recent.dropLast else uid :: recent := by
  by_cases h24 : recent.length = 24
  · have hne : recent ≠ [] := by
      intro he
      rw [he] at h24
      simp at h24
    have hdl : (uid :: recent).dropLast = uid :: recent.dropLast := by
      cases recent with
      | nil => exact absurd rfl hne
      | cons a l => rfl
    have hlen : (uid :: recent).length = 24 + 1 := by simp [h24]
    rw [if_pos h24]
    show popWhileOver 24 (uid :: recent).length (uid :: recent) = _
    rw [hlen, popWhileOver_succ, if_pos (by omega), hdl]
    exact popWhileOver_of_le _ _ _
      (by simp [List.length_dropLast, h24])
  · rw [if_neg h24]
    show popWhileOver 24 (uid :: recent).length (uid :: recent) = _
    exact popWhileOver_of_le _ _ _ (by simp; omega)

/-- C5: starting from any window of length at most 24, every
`rememberSketch` insertion keeps the length at most 24, puts the inserted
uid at index 0, evicts exactly the oldest (last) entry when the window was
full and nothing otherwise; consequently any sequence of insertions keeps
the window within the cap. -/
theorem c5_recency_window_invariant :
    (∀ (uid : String) (recent : List String), recent.length ≤ 24 →
      (rememberSketch uid recent).length ≤ 24 ∧
      (rememberSketch uid recent).head? = some uid ∧
      (recent.length = 24 → rememberSketch uid recent = uid :: recent.dropLast) ∧
      (recent.length < 24 → rememberSketch uid recent = uid :: recent)) ∧
    (∀ (uids recent : List String), recent.length ≤ 24 →
      (uids.foldl (fun r u => rememberSketch u r) recent).length ≤ 24) := by
  have step : ∀ (uid : String) (recent : List String), recent.length ≤ 24 →
      (rememberSketch uid recent).length ≤ 24 ∧
      (rememberSketch uid recent).head? = some uid ∧
      (recent.length = 24 → rememberSketch uid recent = uid :: recent.dropLast) ∧
      (recent.length < 24 → rememberSketch uid recent = uid :: recent) := by
    intro uid recent h
    rw [rememberSketch_eq uid recent h]
    by_cases h24 : recent.length = 24
    · rw [if_pos h24]
      refine ⟨by simp [List.length_dropLast, h24], rfl, fun _ => rfl, fun hlt => ?_⟩
      omega
    · rw [if_neg h24]
      exact ⟨by simp; omega, rfl, fun he => absurd he h24, fun _ => rfl⟩
  refine ⟨step, ?_⟩
  intro uids
  induction uids with
  | nil => intro recent h; simpa using h
  | cons u us ih =>
    intro recent h
    simpa using ih (rememberSketch u recent) ((step u recent h).1)

/-- Witness for C5 at a full window: inserting `x` into a 24-element
window keeps the cap, puts `x` first, and drops the last entry. -/
theorem c5_recency_window_invariant_witness :
    (List.replicate 24 "a").length ≤ 24 ∧
    rememberSketch "x" (List.replicate 24 "a") =
      "x" :: (List.replicate 24 "a").dropLast := by
  refine ⟨by simp, ?_⟩
  exact (((c5_recency_window_invariant.1 "x" (List.replicate 24 "a")
    (by simp)).2.2.1) (by simp))

/-- Unfolding of one conditional attempt of the de-duplicating loop. -/
theorem fetchLoop_succ (results : Nat → Sketch) (recent : List String)
    (now : Int) (fuel i : Nat) :
    fetchLoop results recent now (fuel + 1) i =
      if recent.contains (results i).uid then
        ((fetchLoop results recent now fuel (i + 1)).1,
          Ev.call i :: (fetchLoop results recent now fuel (i + 1)).2)
      else
        (results i, [Ev.call i, Ev.setLastFetchTime now,
          Ev.setLastSketch (results i)]) := by
  conv_lhs => rw [fetchLoop]

/-- Characterization of the de-duplicating loop: it makes `k + 1` calls
for some `k` bounded by the fuel, rejects exactly the first `k` results
(each of which is in the window), and either exhausts the fuel and
accepts the next record unconditionally, or accepts the first record not
in the window; the two store writes happen once, together, at the very
end of the trace, after every call. -/
theorem fetchLoop_spec (results : Nat → Sketch) (recent : List String)
    (now : Int) :
    ∀ fuel i : Nat,
      ∃ (k : Nat) (pre : List Ev),
        (fetchLoop results recent now fuel i).2 =
          pre ++ [Ev.setLastFetchTime now,
            Ev.setLastSketch (fetchLoop results recent now fuel i).1] ∧
        pre.length = k + 1 ∧
        (∀ e ∈ pre, e.isCall = true) ∧
        k ≤ fuel ∧
        (∀ j, j < k → recent.contains (results (i + j)).uid = true) ∧
        ((k = fuel ∧
            (fetchLoop results recent now fuel i).1 = results (i + fuel)) ∨
         (k < fuel ∧ recent.contains (results (i + k)).uid = false ∧
            (fetchLoop results recent now fuel i).1 = results (i + k))) := by
  intro fuel
  induction fuel with
  | zero =>
    intro i
    refine ⟨0, [Ev.call i], rfl, rfl, ?_, Nat.le.refl, ?_,
      Or.inl ⟨rfl, by simp [fetchLoop]⟩⟩
    · intro e he
      simp at he
      rw [he]
      rfl
    · intro j hj
      omega
  | succ fuel ih =>
    intro i
    cases hcb : recent.contains (results i).uid with
    | true =>
      obtain ⟨k, pre, htr, hlen, hcall, hk, hall, hlast⟩ := ih (i + 1)
      refine ⟨k + 1, Ev.call i :: pre, ?_, by simp [hlen], ?_, by omega, ?_, ?_⟩
      · rw [fetchLoop_succ, hcb]
        simp only [if_pos rfl] at *
        rw [htr]
        rfl
      · intro e he
        rcases List.mem_cons.mp he with h | h
        · rw [h]; rfl
        · exact hcall e h
      · intro j hj
        cases j with
        | zero => simpa using hcb
        | succ j' =>
          have harith : i + (j' + 1) = (i + 1) + j' := by omega
          rw [harith]
          exact hall j' (by omega)
      · rw [fetchLoop_succ, hcb]
        simp only [if_pos rfl]
        rcases hlast with ⟨hke, hres⟩ | ⟨hklt, hkf, hres⟩
        · refine Or.inl ⟨by omega, ?_⟩
          have harith : i + (fuel + 1) = (i + 1) + fuel := by omega
          rw [harith]
          exact hres
        · refine Or.inr ⟨by omega, ?_, ?_⟩
          · have harith : i + (k + 1) = (i + 1) + k := by omega
            rw [harith]
            exact hkf
          · have harith : i + (k + 1) = (i + 1) + k := by omega
            rw [harith]
            exact hres
    | false =>
      refine ⟨0, [Ev.call i], ?_, rfl, ?_, by omega, ?_, ?_⟩
      · rw [fetchLoop_succ, hcb]
        simp
      · intro e he
        simp at he
        rw [he]
        rfl
      · intro j hj
        omega
      · refine Or.inr ⟨by omega, by simpa using hcb, ?_⟩
        rw [fetchLoop_succ, hcb]
        simp

/-- A trace consisting only of Fetch Client calls does not change the
store. -/
theorem runTrace_calls (s : Store) (pre : List Ev)
    (h : ∀ e ∈ pre, e.isCall = true) : runTrace s pre = s := by
  induction pre generalizing s with
  | nil => rfl
  | cons e es ih =>
    cases e with
    | call i => exact ih s fun e he => h e (List.mem_cons_of_mem _ he)
    | setLastFetchTime t => simpa [Ev.isCall] using h _ (List.mem_cons_self _ _)
    | setLastSketch d => simpa [Ev.isCall] using h _ (List.mem_cons_self _ _)

/-- Counting calls in a trace of the shape produced by the
de-duplicating loop. -/
theorem callCount_calls_append (pre : List Ev) (now : Int) (d : Sketch)
    (h : ∀ e ∈ pre, e.isCall = true) :
    callCount (pre ++ [Ev.setLastFetchTime now, Ev.setLastSketch d]) =
      pre.length := by
  unfold callCount
  rw [List.countP_append]
  have h1 : List.countP (fun e => e.isCall) pre = pre.length :=
    List.countP_eq_length.mpr h
  have h2 : List.countP (fun e => e.isCall)
      [Ev.setLastFetchTime now, Ev.setLastSketch d] = 0 := rfl
  rw [h1, h2]
  omega

/-- C1: `fetchNewSketch` calls the Fetch Client at most 6 times; it
returns the first of the first 5 fetched records whose uid is not in the
recency window; when all 5 are in the window it makes exactly one more
call (6 in total) and returns that 6th record unconditionally; and on
every return, `lastFetchTime` and `lastSketch` are written together, at
the end of the trace after every call, never earlier. -/
theorem c1_dedupe_fetch (results : Nat → Sketch) (now : Int) (s : Store) :
    callCount (fetchNewSketch results now s).2 ≤ 6 ∧
    (∀ i, i < 5 →
      (∀ j, j < i → s.recent.contains (results j).uid = true) →
      s.recent.contains (results i).uid = false →
      (fetchNewSketch results now s).1 = results i ∧
      callCount (fetchNewSketch results now s).2 = i + 1) ∧
    ((∀ i, i < 5 → s.recent.contains (results i).uid = true) →
      (fetchNewSketch results now s).1 = results 5 ∧
      callCount (fetchNewSketch results now s).2 = 6) ∧
    (∃ pre,
      (fetchNewSketch results now s).2 =
        pre ++ [Ev.setLastFetchTime now,
          Ev.setLastSketch (fetchNewSketch results now s).1] ∧
      (∀ e ∈ pre, e.isCall = true) ∧
      (runTrace s (fetchNewSketch results now s).2).lastFetchTime = some now ∧
      (runTrace s (fetchNewSketch results now s).2).lastSketch =
        some (fetchNewSketch results now s).1) := by
  obtain ⟨k, pre, htr, hlen, hcall, hk, hall, hlast⟩ :=
    fetchLoop_spec results s.recent now 5 0
  have hfe : fetchNewSketch results now s = fetchLoop results s.recent now 5 0 :=
    rfl
  have hcount : callCount (fetchNewSketch results now s).2 = k + 1 := by
    rw [hfe, htr, callCount_calls_append _ _ _ hcall, hlen]
  have hzero : ∀ j, (0 : Nat) + j = j := fun j => Nat.zero_add j
  refine ⟨by omega, ?_, ?_, ?_⟩
  · intro i hi hprev hnotin
    have hki : k = i := by
      rcases hlast with ⟨hke, _⟩ | ⟨hklt, hkf, _⟩
      · exfalso
        have := hall i (by omega)
        rw [hzero] at this
        rw [this] at hnotin
        exact Bool.noConfusion hnotin
      · rcases Nat.lt_trichotomy k i with h | h | h
        · exfalso
          have := hprev k h
          rw [hzero k] at hkf
          rw [this] at hkf
          exact Bool.noConfusion hkf
        · exact h
        · exfalso
          have := hall i h
          rw [hzero] at this
          rw [this] at hnotin
          exact Bool.noConfusion hnotin
    rcases hlast with ⟨hke, _⟩ | ⟨hklt, hkf, hres⟩
    · omega
    · rw [hzero] at hres
      exact ⟨by rw [hfe, hres, hki], by rw [hcount, hki]⟩
  · intro hallin
    rcases hlast with ⟨hke, hres⟩ | ⟨hklt, hkf, _⟩
    · rw [hzero] at hres
      exact ⟨by rw [hfe, hres], by rw [hcount, hke]⟩
    · exfalso
      have := hallin k (by omega)
      rw [hzero k] at hkf
      rw [this] at hkf
      exact Bool.noConfusion hkf
  · refine ⟨pre, by rw [hfe]; exact htr, hcall, ?_, ?_⟩ <;>
      rw [hfe, htr] <;>
      unfold runTrace <;>
      rw [List.foldl_append, show List.foldl applyEv s pre = s from
        runTrace_calls s pre hcall] <;>
      rfl

/-- Witness for C1: with a Fetch Client stub always returning uid `A` and
a window containing `A`, the policy makes exactly 6 calls and returns the
6th record. -/
theorem c1_dedupe_fetch_witness :
    (∀ i, i < 5 → storeWithA.recent.contains (stubAlwaysA i).uid = true) ∧
    (fetchNewSketch stubAlwaysA 7 storeWithA).1 = stubAlwaysA 5 ∧
    callCount (fetchNewSketch stubAlwaysA 7 storeWithA).2 = 6 := by
  have hin : ∀ i, i < 5 → storeWithA.recent.contains (stubAlwaysA i).uid = true :=
    fun i _ => rfl
  have h := (c1_dedupe_fetch stubAlwaysA 7 storeWithA).2.2.1 hin
  exact ⟨hin, h.1, h.2⟩

/-- C3: when the raw request fails with HTTP 503 on the first two attempts
and succeeds on the third, `fetchSketchData` returns the successful
record, makes exactly 3 attempts, and backs off 1 s before the second
attempt and 2 s before the third. -/
theorem c3_retry_backoff_503 (data : ApiData) (h : data.uid ≠ "") :
    fetchSketchData (oracle503 data) =
      (.ok (toSketch data), 3, [1000, 2000]) := by
  have hrun2 : runAttempt (oracle503 data 2) = .ok (toSketch data) := by
    show runAttempt (.respOk (some data)) = _
    simp only [runAttempt]
    rw [if_neg h]
  have hrun0 : runAttempt (oracle503 data 0) = .error (.httpStatus 503) := rfl
  have hrun1 : runAttempt (oracle503 data 1) = .error (.httpStatus 503) := rfl
  have htrans : isTransientError (.httpStatus 503) = true := by decide
  rw [fetchSketchData]
  rw [fetchAttemptsGo, hrun0]
  simp only [htrans, if_pos]
  rw [fetchAttemptsGo, hrun1]
  simp only [htrans, if_pos]
  rw [fetchAttemptsGo, hrun2]
  rfl

/-- Witness for C3 at the concrete body `sampleBody`. -/
theorem c3_retry_backoff_503_witness :
    sampleBody.uid ≠ "" ∧
    fetchSketchData (oracle503 sampleBody) =
      (.ok (toSketch sampleBody), 3, [1000, 2000]) :=
  ⟨by decide, c3_retry_backoff_503 sampleBody (by decide)⟩

/-- C4 (code behavior at the failing input): an HTTP 404 failure IS
retried by the code, because the thrown message
`Failed to fetch sketch data: 404` contains the substring
`Failed to fetch` tested by the transient-failure check; with a client
failing 404 on every attempt, `fetchSketchData` makes 3 attempts with
backoffs of 1 s and 2 s before finally propagating the 404 — not the
single attempt the specification requires. -/
theorem c4_code_retries_404 :
    isTransientError (.httpStatus 404) = true ∧
    fetchSketchData oracle404 =
      (.error (.httpStatus 404), 3, [1000, 2000]) :=
  ⟨by decide, by rfl⟩

/-- A constant local-calendar decomposition (every instant falls on the
same civil date), used to realize cache-hit cadence scenarios. -/
def civilConst : Int → Civil := fun _ => ⟨2024, 1, 1⟩

/-- A store holding a last sketch, a stale connectivity classification,
and cadence state satisfied for `daily` under `civilConst`. -/
def storeCacheHit : Store :=
  ⟨"daily", some 0, some sampleSketch, ["z"], some ⟨"service_issue", 5⟩⟩

/-- C6: when the cadence rule requires no fetch and a last sketch is
stored, `nextUniqueSketch` returns that stored record unchanged, performs
no Fetch Client call, and leaves every store slot exactly as it was. -/
theorem c6_cache_hit_pure (civil : Int → Civil) (results : Nat → Sketch)
    (now : Int) (s : Store) (sk : Sketch)
    (hs : shouldFetchNewSketch civil s.frequency s.lastFetchTime now = false)
    (hls : s.lastSketch = some sk) :
    (nextUniqueSketch civil results now s).1 = sk ∧
    callCount (nextUniqueSketch civil results now s).2 = 0 ∧
    runTrace s (nextUniqueSketch civil results now s).2 = s := by
  have hres : nextUniqueSketch civil results now s = (sk, []) := by
    unfold nextUniqueSketch
    rw [hs, if_pos rfl, hls]
  rw [hres]
  exact ⟨rfl, rfl, rfl⟩

/-- Witness for C6: a cache-hit on `storeCacheHit` under `civilConst`
returns the stored sketch and leaves the store intact. -/
theorem c6_cache_hit_pure_witness :
    shouldFetchNewSketch civilConst storeCacheHit.frequency
      storeCacheHit.lastFetchTime 999 = false ∧
    storeCacheHit.lastSketch = some sampleSketch ∧
    (nextUniqueSketch civilConst stubAlwaysA 999 storeCacheHit).1 =
      sampleSketch ∧
    callCount (nextUniqueSketch civilConst stubAlwaysA 999 storeCacheHit).2 = 0 ∧
    runTrace storeCacheHit
      (nextUniqueSketch civilConst stubAlwaysA 999 storeCacheHit).2 =
      storeCacheHit := by
  have h := c6_cache_hit_pure civilConst stubAlwaysA 999 storeCacheHit
    sampleSketch (by decide) (by decide)
  exact ⟨by decide, by decide, h.1, h.2.1, h.2.2⟩

/-- A store whose cadence is satisfied under `civilConst` but which holds
no last sketch. -/
def storeNoLast : Store := ⟨"daily", some 0, none, ["z"], none⟩

/-- C10: when the cadence rule requires no fetch but no last sketch is
stored, `nextUniqueSketch` falls through to the full de-duplicating
fetch, exactly as if a fetch had been required. -/
theorem c10_fallthrough_no_last_sketch (civil : Int → Civil)
    (results : Nat → Sketch) (now : Int) (s : Store)
    (hs : shouldFetchNewSketch civil s.frequency s.lastFetchTime now = false)
    (hn : s.lastSketch = none) :
    nextUniqueSketch civil results now s = fetchNewSketch results now s := by
  unfold nextUniqueSketch
  rw [hs, if_pos rfl, hn]

/-- Witness for C10 on `storeNoLast` under `civilConst`. -/
theorem c10_fallthrough_no_last_sketch_witness :
    shouldFetchNewSketch civilConst storeNoLast.frequency
      storeNoLast.lastFetchTime 999 = false ∧
    storeNoLast.lastSketch = none ∧
    nextUniqueSketch civilConst stubAlwaysA 999 storeNoLast =
      fetchNewSketch stubAlwaysA 999 storeNoLast :=
  ⟨by decide, rfl,
    c10_fallthrough_no_last_sketch civilConst stubAlwaysA 999 storeNoLast
      (by decide) rfl⟩

/-- C9 (counterexample): on a body omitting both `imageAlt` and `title`,
the record's `imageAlt` is the empty string while the record's title is
derived from the uid, so `imageAlt` does NOT equal the record's title. -/
theorem c9_counterexample :
    sampleBody.imageAlt = none ∧ sampleBody.title = none ∧
    (toSketch sampleBody).imageAlt = "" ∧
    (toSketch sampleBody).title = "a b" ∧
    (toSketch sampleBody).imageAlt ≠ (toSketch sampleBody).title := by
  refine ⟨rfl, rfl, rfl, by decide, by decide⟩

/-- C9 (amended): when the upstream response omits `imageAlt`, the
record's `imageAlt` equals the upstream `title` fallback chain
`data.title || ""`: it equals the record's title whenever a nonempty
upstream title exists, and is the empty string (not the uid-derived
title) when the upstream title is absent. -/
theorem c9_imageAlt_fallback (data : ApiData) (h : data.imageAlt = none) :
    (toSketch data).imageAlt = jsOrS data.title "" ∧
    (∀ t, data.title = some t → t ≠ "" →
      (toSketch data).imageAlt = (toSketch data).title) ∧
    (data.title = none → (toSketch data).imageAlt = "") := by
  refine ⟨?_, ?_, ?_⟩
  · simp [toSketch, h, jsOrS]
  · intro t ht hne
    simp [toSketch, h, ht, jsOrS, hne]
  · intro ht
    simp [toSketch, h, ht, jsOrS]

/-- A body with a nonempty title but no `imageAlt`. -/
def sampleBodyTitled : ApiData := { sampleBody with title := some "T" }

/-- Witness for the amended C9 at `sampleBodyTitled`. -/
theorem c9_imageAlt_fallback_witness :
    sampleBodyTitled.imageAlt = none ∧
    (toSketch sampleBodyTitled).imageAlt = jsOrS sampleBodyTitled.title "" ∧
    (toSketch sampleBodyTitled).imageAlt = (toSketch sampleBodyTitled).title := by
  have h := c9_imageAlt_fallback sampleBodyTitled rfl
  exact ⟨rfl, h.1, h.2.1 "T" rfl (by decide)⟩

/-- A reachable store while a sketch is rendered with a stale
`service_issue` classification still cached: reached by a failed initial
load (which caches the classification and shows the error state) followed
by the error state's "Show last sketch" affordance. -/
def staleCacheStore : Store :=
  ⟨"each-tab", some 0, some sampleSketch, [], some ⟨"service_issue", 0⟩⟩

/-- C7 (code behavior at the failing input): the success path of
`handleRefresh` — the manual refresh installed while a sketch is rendered
— does NOT clear `connectivityCache`, while the error-state retry
handler, the error-state refresh handler and the initial load all do;
so after a successful `handleRefresh` fetch from `staleCacheStore` the
cached classification survives, contradicting the required invariant. -/
theorem c7_handleRefresh_keeps_cache :
    (handleRefreshSuccess stubAlwaysA 1 staleCacheStore).2.connectivityCache =
      some ⟨"service_issue", 0⟩ ∧
    (retrySuccess stubAlwaysA 1 staleCacheStore).2.connectivityCache = none ∧
    (errorRefreshSuccess stubAlwaysA 1 staleCacheStore).2.connectivityCache =
      none ∧
    (initLoadSuccess civilConst stubAlwaysA 1
      staleCacheStore).2.connectivityCache = none := by
  refine ⟨rfl, rfl, rfl, rfl⟩

